import Mathlib

/-!
Shallow embedding of the kitchen state machine from `src/kitchen.rs` and the
data names from `src/client.rs`.

Modelling conventions:
* `SystemTime` values are modelled as `Nat` microseconds since `UNIX_EPOCH`
  (the code only ever observes times through `duration_since(UNIX_EPOCH)`
  in microseconds or through second-granularity differences).
* Rust's `u64 as i64` cast on the order freshness is modelled exactly by
  `u64ToI64`.  The remaining integer casts in the code (elapsed seconds,
  microsecond timestamps) cannot overflow for any time below roughly
  585 thousand years after the epoch, and are modelled as exact `Nat`/`Int`
  arithmetic.
* `VecDeque` is a `List` whose head is the front; `HashMap<String, _>` is an
  association `List (String × StoredOrder)` whose insert removes any previous
  binding of the key (so keys stay unique, as in a real map);
  `BinaryHeap<Reverse<OrderEntry>>` is a `List OrderEntry` kept sorted
  ascending by `expires_at` (minimum at the head) with a stable ordered
  insert — `BinaryHeap` leaves the pop order of equal keys unspecified and
  this model fixes one such order.
* `calculate_expiration` performs `freshness as f64 / rate as f64 * 1.0e6`
  and casts to `u64`.  Since `rate ∈ {1, 2}` and `1_000_000` is even, the
  exact real value is the integer `freshness * 1_000_000 / rate`, and the
  `f64` computation returns it exactly whenever that integer is below `2^53`
  (in particular for every `freshness ≤ 9 * 10^9`); the model uses the exact
  integer value.
* A Rust `panic!` (process abort) is modelled by an operation returning
  `none`.
-/

namespace MTKitchen

/-- Action kind strings from `client.rs`. -/
def PLACE : String := "place"

def MOVE : String := "move"

def PICKUP : String := "pickup"

def DISCARD : String := "discard"

/-- Temperature class strings from `client.rs`. -/
def HOT : String := "hot"

def COLD : String := "cold"

def ROOM : String := "room"

/-- Storage location strings from `client.rs`. -/
def HEATER : String := "heater"

def COOLER : String := "cooler"

def SHELF : String := "shelf"

def COOLER_CAPACITY : Nat := 6

def HEATER_CAPACITY : Nat := 6

def SHELF_CAPACITY : Nat := 12

def DEGRADATION_RATE_IDEAL : Int := 1

def DEGRADATION_RATE_NON_IDEAL : Int := 2

/-- Rust `u64 as i64`: two's-complement reinterpretation of a 64-bit value. -/
def u64ToI64 (n : Nat) : Int :=
  if n % 2 ^ 64 < 2 ^ 63 then ((n % 2 ^ 64 : Nat) : Int)
  else ((n % 2 ^ 64 : Nat) : Int) - 2 ^ 64

/-- Embeds `Order` from `client.rs` (deserialized challenge input). -/
structure Order where
  id : String
  name : String
  temp : String
  price : Nat
  freshness : Nat
deriving Repr, DecidableEq

/-- Embeds `StoredOrder` from `kitchen.rs`: `placed_at` is microseconds since epoch. -/
structure StoredOrder where
  order : Order
  placed_at : Nat
  current_temp : String
deriving Repr, DecidableEq

/-- Embeds `Action` from `client.rs`: `timestamp` is microseconds since epoch. -/
structure Action where
  timestamp : Nat
  id : String
  action : String
  target : String
deriving Repr, DecidableEq

/-- Embeds `OrderEntry` from `kitchen.rs` (shelf priority-queue element). -/
structure OrderEntry where
  order_id : String
  expires_at : Nat
deriving Repr, DecidableEq

/-- Embeds `StoredOrder::get_storage_temp`: ambient temperature of a storage
location; any unrecognized string falls through to `ROOM`. -/
def StoredOrder.get_storage_temp (storage_location : String) : String :=
  if storage_location = HEATER then HOT
  else if storage_location = COOLER then COLD
  else if storage_location = SHELF then ROOM
  else ROOM

/-- Embeds `StoredOrder::remaining_freshness`.  `duration_since(placed_at)` with
`unwrap_or_default` is `Nat` truncated subtraction (a time before `placed_at`
yields the zero duration), and `as_secs` is division by `1_000_000`. -/
def StoredOrder.remaining_freshness (s : StoredOrder) (now : Nat) : Int :=
  let elapsed : Int := (((now - s.placed_at) / 1000000 : Nat) : Int)
  let storage_temp := StoredOrder.get_storage_temp s.current_temp
  let degradation_rate : Int :=
    if s.order.temp = storage_temp then DEGRADATION_RATE_IDEAL
    else DEGRADATION_RATE_NON_IDEAL
  let degraded_freshness := elapsed * degradation_rate
  u64ToI64 s.order.freshness - degraded_freshness

/-- Embeds `StoredOrder::is_expired`. -/
def StoredOrder.is_expired (s : StoredOrder) (now : Nat) : Bool :=
  s.remaining_freshness now ≤ 0

/-- Association-list model of `HashMap::get` composed with key lookup. -/
def mapLookup (k : String) (m : List (String × StoredOrder)) : Option StoredOrder :=
  (m.find? (fun p => p.1 = k)).map Prod.snd

/-- Association-list model of `HashMap::remove`'s effect on the map. -/
def mapErase (k : String) (m : List (String × StoredOrder)) : List (String × StoredOrder) :=
  m.filter (fun p => p.1 ≠ k)

/-- Association-list model of `HashMap::insert` (replaces any old binding). -/
def mapInsert (k : String) (v : StoredOrder) (m : List (String × StoredOrder)) :
    List (String × StoredOrder) :=
  (k, v) :: mapErase k m

/-- Model of `BinaryHeap<Reverse<OrderEntry>>::push`: stable ordered insert
into a list kept sorted ascending by `expires_at`. -/
def heapPush (e : OrderEntry) : List OrderEntry → List OrderEntry
  | [] => [e]
  | x :: xs => if e.expires_at < x.expires_at then e :: x :: xs else x :: heapPush e xs

/-- Embeds `Kitchen` from `kitchen.rs`.  The `Arc<Mutex<_>>` wrappers serialize
access; the sequential semantics of each operation is modelled directly. -/
structure Kitchen where
  cooler : List StoredOrder
  heater : List StoredOrder
  shelf : List (String × StoredOrder)
  shelf_queue : List OrderEntry
  actions : List Action
  last_timestamp : Nat
deriving Repr, DecidableEq

/-- Embeds `Kitchen::new`. -/
def Kitchen.new : Kitchen :=
  { cooler := [], heater := [], shelf := [], shelf_queue := [],
    actions := [], last_timestamp := 0 }

/-- Embeds `Kitchen::record_action`: issue `max(provided, last + 1)`, advance
`last_timestamp`, and append the action to the log. -/
def Kitchen.record_action (k : Kitchen) (order_id : String)
    (action_type : String) (target : String) (timestamp : Nat) : Kitchen :=
  let provided_timestamp_micros := timestamp
  let monotonic_timestamp_micros := max provided_timestamp_micros (k.last_timestamp + 1)
  { k with
    actions := k.actions ++
      [{ timestamp := monotonic_timestamp_micros, id := order_id,
         action := action_type, target := target }],
    last_timestamp := monotonic_timestamp_micros }

/-- Embeds `Kitchen::try_place_in_storage` (cooler or heater): fail when at
capacity, else push to the back and record `place → target`. -/
def Kitchen.try_place_in_storage (k : Kitchen) (stored : StoredOrder)
    (target : String) (timestamp : Nat) : Bool × Kitchen :=
  let storage := if target = COOLER then k.cooler else k.heater
  let capacity := if target = COOLER then COOLER_CAPACITY else HEATER_CAPACITY
  if storage.length ≥ capacity then (false, k)
  else
    let stored2 := { stored with current_temp := target }
    let k2 := if target = COOLER then { k with cooler := k.cooler ++ [stored2] }
              else { k with heater := k.heater ++ [stored2] }
    (true, k2.record_action stored2.order.id PLACE target timestamp)

/-- Embeds `Kitchen::calculate_expiration` (the `_now` argument is unused in the
source as well).  Models the `f64` round trip by the exact integer
`freshness * 1_000_000 / rate`, see the module comment. -/
def Kitchen.calculate_expiration (stored : StoredOrder) (_now : Nat) : Nat :=
  let storage_temp := StoredOrder.get_storage_temp stored.current_temp
  let degradation_rate : Nat := if stored.order.temp = storage_temp then 1 else 2
  let microseconds_until_expiration := stored.order.freshness * 1000000 / degradation_rate
  stored.placed_at + microseconds_until_expiration

/-- Embeds `Kitchen::try_place_on_shelf`: fail when the shelf is at capacity, else
insert into the shelf map, push a queue entry, record `place → shelf`. -/
def Kitchen.try_place_on_shelf (k : Kitchen) (stored : StoredOrder)
    (timestamp : Nat) : Bool × Kitchen :=
  if k.shelf.length ≥ SHELF_CAPACITY then (false, k)
  else
    let stored2 := { stored with current_temp := SHELF }
    let expires_at := Kitchen.calculate_expiration stored2 stored2.placed_at
    let entry : OrderEntry := { order_id := stored2.order.id, expires_at := expires_at }
    let k2 := { k with
      shelf := mapInsert stored2.order.id stored2 k.shelf,
      shelf_queue := heapPush entry k.shelf_queue }
    (true, k2.record_action stored2.order.id PLACE SHELF timestamp)

/-- Embeds `Kitchen::force_place_on_shelf`: like the try version but a full shelf
is a `panic!` (modelled as `none`). -/
def Kitchen.force_place_on_shelf (k : Kitchen) (stored : StoredOrder)
    (timestamp : Nat) : Option Kitchen :=
  if k.shelf.length ≥ SHELF_CAPACITY then none
  else
    let stored2 := { stored with current_temp := SHELF }
    let expires_at := Kitchen.calculate_expiration stored2 stored2.placed_at
    let entry : OrderEntry := { order_id := stored2.order.id, expires_at := expires_at }
    let k2 := { k with
      shelf := mapInsert stored2.order.id stored2 k.shelf,
      shelf_queue := heapPush entry k.shelf_queue }
    some (k2.record_action stored2.order.id PLACE SHELF timestamp)

/-- Embeds `Kitchen::force_place_in_storage`: like the try version but a full
storage is a `panic!` (modelled as `none`). -/
def Kitchen.force_place_in_storage (k : Kitchen) (stored : StoredOrder)
    (target : String) (timestamp : Nat) : Option Kitchen :=
  let storage := if target = COOLER then k.cooler else k.heater
  let capacity := if target = COOLER then COOLER_CAPACITY else HEATER_CAPACITY
  if storage.length ≥ capacity then none
  else
    let stored2 := { stored with current_temp := target }
    let k2 := if target = COOLER then { k with cooler := k.cooler ++ [stored2] }
              else { k with heater := k.heater ++ [stored2] }
    some (k2.record_action stored2.order.id PLACE target timestamp)

/-- Loop body of `Kitchen::discard_from_shelf`: pop queue entries until one
names an id still on the shelf; return the victim id, the shelf with the
victim removed, and the rest of the queue.  `none` when the queue runs out
(the source then panics either way). -/
def discardLoop (shelf : List (String × StoredOrder)) :
    List OrderEntry → Option (String × List (String × StoredOrder) × List OrderEntry)
  | [] => none
  | e :: rest =>
    if (mapLookup e.order_id shelf).isSome then
      some (e.order_id, mapErase e.order_id shelf, rest)
    else discardLoop shelf rest

/-- Embeds `Kitchen::discard_from_shelf`: evict the queue's first entry that is
still on the shelf, recording `discard → shelf`; both terminal `panic!`s
(queue exhausted with the shelf empty or not) are modelled as `none`. -/
def Kitchen.discard_from_shelf (k : Kitchen) (timestamp : Nat) : Option Kitchen :=
  match discardLoop k.shelf k.shelf_queue with
  | some (victim, shelf2, queue2) =>
      some (({ k with shelf := shelf2, shelf_queue := queue2 }).record_action
        victim DISCARD SHELF timestamp)
  | none => none

/-- Embeds `Kitchen::try_move_to_shelf_from_storage`: if the shelf is full first
evict one order; then pop the front of `source` (false when empty), insert
it on the shelf with a recomputed expiration, record `move → shelf`. -/
def Kitchen.try_move_to_shelf_from_storage (k : Kitchen) (source : String)
    (timestamp : Nat) : Option (Bool × Kitchen) :=
  let step1 : Option Kitchen :=
    if k.shelf.length ≥ SHELF_CAPACITY then k.discard_from_shelf timestamp else some k
  match step1 with
  | none => none
  | some k1 =>
    let storage := if source = COOLER then k1.cooler else k1.heater
    match storage with
    | [] => some (false, k1)
    | stored :: rest =>
      let k2 := if source = COOLER then { k1 with cooler := rest }
                else { k1 with heater := rest }
      let moved := { stored with current_temp := SHELF }
      let expires_at := Kitchen.calculate_expiration moved moved.placed_at
      let entry : OrderEntry := { order_id := stored.order.id, expires_at := expires_at }
      let k3 := { k2 with
        shelf := mapInsert stored.order.id moved k2.shelf,
        shelf_queue := heapPush entry k2.shelf_queue }
      some (true, k3.record_action stored.order.id MOVE SHELF timestamp)

/-- Embeds `Kitchen::place_order`: the placement cascade.  `none` models a
`panic!` on one of the forced steps. -/
def Kitchen.place_order (k : Kitchen) (order : Order) (timestamp : Nat) :
    Option Kitchen :=
  let stored : StoredOrder :=
    { order := order, placed_at := timestamp, current_temp := "" }
  let ideal_target :=
    if order.temp = HOT then HEATER
    else if order.temp = COLD then COOLER
    else SHELF
  let firstTry : Bool × Kitchen :=
    if order.temp = HOT ∨ order.temp = COLD then
      let r := k.try_place_in_storage stored ideal_target timestamp
      if r.1 then r else r.2.try_place_on_shelf stored timestamp
    else k.try_place_on_shelf stored timestamp
  if firstTry.1 then some firstTry.2
  else if order.temp = HOT ∨ order.temp = COLD then
    match firstTry.2.try_move_to_shelf_from_storage ideal_target timestamp with
    | none => none
    | some (moved, k2) =>
      if moved then k2.force_place_in_storage stored ideal_target timestamp
      else
        let r := k2.try_place_on_shelf stored timestamp
        if r.1 then some r.2
        else
          match r.2.discard_from_shelf timestamp with
          | none => none
          | some k4 => k4.force_place_on_shelf stored timestamp
  else
    match firstTry.2.discard_from_shelf timestamp with
    | none => none
    | some k2 => k2.force_place_on_shelf stored timestamp

/-- Embeds `Kitchen::pickup_order`: search cooler, then heater, then shelf; remove
at the first hit and record `discard` (expired) or `pickup`; silently do
nothing when the id is absent. -/
def Kitchen.pickup_order (k : Kitchen) (order_id : String) (timestamp : Nat) :
    Kitchen :=
  match k.cooler.find? (fun o => o.order.id = order_id) with
  | some stored =>
    let k2 := { k with cooler := k.cooler.eraseP (fun o => o.order.id = order_id) }
    if stored.is_expired timestamp then k2.record_action order_id DISCARD COOLER timestamp
    else k2.record_action order_id PICKUP COOLER timestamp
  | none =>
    match k.heater.find? (fun o => o.order.id = order_id) with
    | some stored =>
      let k2 := { k with heater := k.heater.eraseP (fun o => o.order.id = order_id) }
      if stored.is_expired timestamp then k2.record_action order_id DISCARD HEATER timestamp
      else k2.record_action order_id PICKUP HEATER timestamp
    | none =>
      match mapLookup order_id k.shelf with
      | some stored =>
        let k2 := { k with
          shelf := mapErase order_id k.shelf,
          shelf_queue := k.shelf_queue.filter (fun e => e.order_id ≠ order_id) }
        if stored.is_expired timestamp then k2.record_action order_id DISCARD SHELF timestamp
        else k2.record_action order_id PICKUP SHELF timestamp
      | none => k

/-- Embeds `Kitchen::get_actions`: snapshot of the log sorted by timestamp. -/
def Kitchen.get_actions (k : Kitchen) : List Action :=
  k.actions.mergeSort (fun a b => a.timestamp ≤ b.timestamp)

/-- All stored orders currently carrying a given id, across the three
storages (cooler, then heater, then shelf values). -/
def Kitchen.lookupId (k : Kitchen) (oid : String) : List StoredOrder :=
  k.cooler.filter (fun s => s.order.id = oid) ++
  k.heater.filter (fun s => s.order.id = oid) ++
  (k.shelf.filter (fun p => p.1 = oid)).map Prod.snd

/-! Basic lemmas about the embedded definitions. -/

lemma u64ToI64_of_lt {n : Nat} (h : n < 2 ^ 63) : u64ToI64 n = (n : Int) := by
  have h64 : n < 2 ^ 64 := lt_trans h (by norm_num)
  unfold u64ToI64
  rw [Nat.mod_eq_of_lt h64, if_pos h]

lemma storage_temp_heater : StoredOrder.get_storage_temp HEATER = HOT := by decide

lemma storage_temp_cooler : StoredOrder.get_storage_temp COOLER = COLD := by decide

lemma storage_temp_shelf : StoredOrder.get_storage_temp SHELF = ROOM := by decide

lemma storage_temp_other (loc : String) (h1 : loc ≠ HEATER) (h2 : loc ≠ COOLER) :
    StoredOrder.get_storage_temp loc = ROOM := by
  by_cases h3 : loc = SHELF
  · subst h3; decide
  · simp [StoredOrder.get_storage_temp, h1, h2, h3]

lemma record_action_actions (k : Kitchen) (oid a tgt : String) (t : Nat) :
    (k.record_action oid a tgt t).actions =
      k.actions ++ [{ timestamp := max t (k.last_timestamp + 1), id := oid,
                      action := a, target := tgt }] := rfl

lemma record_action_last (k : Kitchen) (oid a tgt : String) (t : Nat) :
    (k.record_action oid a tgt t).last_timestamp = max t (k.last_timestamp + 1) := rfl

/-- Concrete data for the scenario witnesses below. -/
def orderX : Order := { id := "X", name := "X", temp := HOT, price := 0, freshness := 2 }

def storedC10 : StoredOrder :=
  { order := { id := "w", name := "w", temp := HOT, price := 0, freshness := 5 },
    placed_at := 10, current_temp := HEATER }

/-- C10: a pickup time earlier than `placed_at` is handled by
`unwrap_or_default`: the elapsed time is zero, the remaining freshness is the
full budget, and the order is not expired. -/
theorem claim_C10 (s : StoredOrder) (t : Nat) (ht : t < s.placed_at)
    (hpos : 0 < s.order.freshness) (hlt : s.order.freshness < 2 ^ 63) :
    s.remaining_freshness t = (s.order.freshness : Int) ∧ s.is_expired t = false := by
  have hsub : t - s.placed_at = 0 := Nat.sub_eq_zero_of_le (le_of_lt ht)
  have h1 : s.remaining_freshness t = (s.order.freshness : Int) := by
    simp [StoredOrder.remaining_freshness, hsub, u64ToI64_of_lt hlt]
  refine ⟨h1, ?_⟩
  simp [StoredOrder.is_expired, h1]
  omega

theorem claim_C10_witness :
    storedC10.remaining_freshness 3 = (storedC10.order.freshness : Int) ∧
      storedC10.is_expired 3 = false :=
  claim_C10 storedC10 3 (by decide) (by decide) (by decide)

/-- C4: remaining freshness is the budget minus `rate * elapsed_seconds`
with rate 1 under the ideal ambient and 2 otherwise, expiration is exactly
`remaining ≤ 0`, and scenario S5 (hot, freshness 2, placed on the heater at
`t = 0`, picked up at `t = 3s`) logs `place → heater` then
`discard → heater` and no `pickup`.  The bound on `freshness` makes the
Rust `u64 as i64` cast exact. -/
theorem claim_C4 (s : StoredOrder) (t : Nat) (hlt : s.order.freshness < 2 ^ 63) :
    (s.remaining_freshness t = (s.order.freshness : Int) -
      (if s.order.temp = StoredOrder.get_storage_temp s.current_temp then 1 else 2) *
        (((t - s.placed_at) / 1000000 : Nat) : Int)) ∧
    (s.is_expired t = true ↔ s.remaining_freshness t ≤ 0) ∧
    ((Kitchen.new.place_order orderX 0).map (fun k1 =>
        (k1.pickup_order orderX.id 3000000).actions.map (fun a => (a.action, a.target))) =
      some [(PLACE, HEATER), (DISCARD, HEATER)]) := by
  refine ⟨?_, ?_, by decide⟩
  · simp [StoredOrder.remaining_freshness, u64ToI64_of_lt hlt,
      DEGRADATION_RATE_IDEAL, DEGRADATION_RATE_NON_IDEAL, mul_comm]
  · simp [StoredOrder.is_expired]

theorem claim_C4_witness :
    (storedC10.remaining_freshness 4000010 = (storedC10.order.freshness : Int) -
      (if storedC10.order.temp = StoredOrder.get_storage_temp storedC10.current_temp then 1 else 2) *
        (((4000010 - storedC10.placed_at) / 1000000 : Nat) : Int)) ∧
    (storedC10.is_expired 4000010 = true ↔ storedC10.remaining_freshness 4000010 ≤ 0) ∧
    ((Kitchen.new.place_order orderX 0).map (fun k1 =>
        (k1.pickup_order orderX.id 3000000).actions.map (fun a => (a.action, a.target))) =
      some [(PLACE, HEATER), (DISCARD, HEATER)]) :=
  claim_C4 storedC10 4000010 (by decide)

/-- C3: `record_action` issues exactly `max(t, last + 1)`, advances the
last-issued value to it, and therefore preserves strict monotonicity of the
log (so no two actions share a timestamp). -/
theorem claim_C3 (k : Kitchen) (oid a tgt : String) (t : Nat) :
    ((k.record_action oid a tgt t).actions =
      k.actions ++ [{ timestamp := max t (k.last_timestamp + 1), id := oid,
                      action := a, target := tgt }]) ∧
    ((k.record_action oid a tgt t).last_timestamp = max t (k.last_timestamp + 1)) ∧
    ((k.actions.Pairwise (fun x y => x.timestamp < y.timestamp) ∧
        ∀ x ∈ k.actions, x.timestamp ≤ k.last_timestamp) →
      ((k.record_action oid a tgt t).actions.Pairwise (fun x y => x.timestamp < y.timestamp) ∧
        (∀ x ∈ (k.record_action oid a tgt t).actions,
          x.timestamp ≤ (k.record_action oid a tgt t).last_timestamp) ∧
        (k.record_action oid a tgt t).actions.Pairwise (fun x y => x.timestamp ≠ y.timestamp))) := by
  refine ⟨rfl, rfl, ?_⟩
  rintro ⟨hpw, hle⟩
  have hnewlt : ∀ x ∈ k.actions, x.timestamp < max t (k.last_timestamp + 1) := by
    intro x hx
    exact lt_of_le_of_lt (hle x hx)
      (lt_of_lt_of_le (Nat.lt_succ_self _) (le_max_right _ _))
  have hpw2 : (k.record_action oid a tgt t).actions.Pairwise
      (fun x y => x.timestamp < y.timestamp) := by
    rw [record_action_actions]
    refine List.pairwise_append.mpr ⟨hpw, List.pairwise_singleton _ _, ?_⟩
    intro x hx y hy
    rw [List.mem_singleton] at hy
    subst hy
    exact hnewlt x hx
  refine ⟨hpw2, ?_, hpw2.imp (fun h => ne_of_lt h)⟩
  intro x hx
  rw [record_action_actions] at hx
  rw [record_action_last]
  rcases List.mem_append.mp hx with h | h
  · exact le_of_lt (hnewlt x h)
  · rw [List.mem_singleton] at h
    subst h
    exact le_refl _

theorem claim_C3_witness :
    ((Kitchen.new.record_action orderX.id PLACE HEATER 7).actions =
      Kitchen.new.actions ++ [{ timestamp := max 7 (Kitchen.new.last_timestamp + 1),
                                id := orderX.id, action := PLACE, target := HEATER }]) ∧
    ((Kitchen.new.record_action orderX.id PLACE HEATER 7).last_timestamp =
      max 7 (Kitchen.new.last_timestamp + 1)) ∧
    ((Kitchen.new.record_action orderX.id PLACE HEATER 7).actions.Pairwise
        (fun x y => x.timestamp < y.timestamp) ∧
      (∀ x ∈ (Kitchen.new.record_action orderX.id PLACE HEATER 7).actions,
        x.timestamp ≤ (Kitchen.new.record_action orderX.id PLACE HEATER 7).last_timestamp) ∧
      (Kitchen.new.record_action orderX.id PLACE HEATER 7).actions.Pairwise
        (fun x y => x.timestamp ≠ y.timestamp)) := by
  have h := claim_C3 Kitchen.new orderX.id PLACE HEATER 7
  exact ⟨h.1, h.2.1, h.2.2 (by constructor <;> simp [Kitchen.new])⟩

/-- C7: a move from cooler/heater pushes a heap entry whose key is
recomputed against the shelf's room ambient:
`placed_at + freshness_micros / rate` with rate 1 iff the order's temp is
`room`.  Since `rate ∈ {1,2}` divides `freshness * 1_000_000`, this integer
equals `floor((freshness / rate) * 1_000_000)`; the bound on `freshness`
keeps the source's `f64` computation of it exact. -/
theorem claim_C7 (k : Kitchen) (source : String) (t : Nat) (s : StoredOrder)
    (rest : List StoredOrder)
    (hfresh : s.order.freshness ≤ 9 * 10 ^ 9)
    (hsrc : (if source = COOLER then k.cooler else k.heater) = s :: rest)
    (hshelf : k.shelf.length < SHELF_CAPACITY) :
    ∃ bk, k.try_move_to_shelf_from_storage source t = some (true, bk) ∧
      bk.shelf_queue = heapPush { order_id := s.order.id,
                                  expires_at := s.placed_at + s.order.freshness * 1000000 /
                                    (if s.order.temp = ROOM then 1 else 2) } k.shelf_queue ∧
      Kitchen.calculate_expiration { s with current_temp := SHELF } s.placed_at =
        s.placed_at + s.order.freshness * 1000000 /
          (if s.order.temp = ROOM then 1 else 2) := by
  have hnotfull : ¬ (k.shelf.length ≥ SHELF_CAPACITY) := not_le.mpr hshelf
  have hexp : Kitchen.calculate_expiration { s with current_temp := SHELF } s.placed_at =
      s.placed_at + s.order.freshness * 1000000 /
        (if s.order.temp = ROOM then 1 else 2) := by
    simp [Kitchen.calculate_expiration, storage_temp_shelf]
  by_cases hsource : source = COOLER
  · rw [if_pos hsource] at hsrc
    refine ⟨{ cooler := rest, heater := k.heater,
              shelf := mapInsert s.order.id { s with current_temp := SHELF } k.shelf,
              shelf_queue := heapPush
                { order_id := s.order.id,
                  expires_at := Kitchen.calculate_expiration
                    { s with current_temp := SHELF } s.placed_at } k.shelf_queue,
              actions := k.actions ++ [{ timestamp := max t (k.last_timestamp + 1),
                                         id := s.order.id, action := MOVE, target := SHELF }],
              last_timestamp := max t (k.last_timestamp + 1) }, ?_, ?_, hexp⟩
    · simp [Kitchen.try_move_to_shelf_from_storage, hnotfull, hsource, hsrc,
        Kitchen.record_action]
    · rw [hexp]
  · rw [if_neg hsource] at hsrc
    refine ⟨{ cooler := k.cooler, heater := rest,
              shelf := mapInsert s.order.id { s with current_temp := SHELF } k.shelf,
              shelf_queue := heapPush
                { order_id := s.order.id,
                  expires_at := Kitchen.calculate_expiration
                    { s with current_temp := SHELF } s.placed_at } k.shelf_queue,
              actions := k.actions ++ [{ timestamp := max t (k.last_timestamp + 1),
                                         id := s.order.id, action := MOVE, target := SHELF }],
              last_timestamp := max t (k.last_timestamp + 1) }, ?_, ?_, hexp⟩
    · simp [Kitchen.try_move_to_shelf_from_storage, hnotfull, hsource, hsrc,
        Kitchen.record_action]
    · rw [hexp]

/-- C9: an order whose temp is neither `hot` nor `cold` (not only `room`)
takes the shelf path, and every unrecognized storage string has room
ambient, so such an order with temp ≠ `room` degrades at rate 2 on the
shelf. -/
theorem claim_C9 (k : Kitchen) (o : Order) (t : Nat)
    (h1 : o.temp ≠ HOT) (h2 : o.temp ≠ COLD)
    (hshelf : k.shelf.length < SHELF_CAPACITY) :
    ∃ k2, k.place_order o t = some k2 ∧
      k2.cooler = k.cooler ∧ k2.heater = k.heater ∧
      k2.shelf = mapInsert o.id { order := o, placed_at := t, current_temp := SHELF } k.shelf ∧
      k2.actions = k.actions ++ [{ timestamp := max t (k.last_timestamp + 1), id := o.id,
                                   action := PLACE, target := SHELF }] ∧
      (∀ loc, loc ≠ HEATER → loc ≠ COOLER → StoredOrder.get_storage_temp loc = ROOM) ∧
      (o.temp ≠ ROOM → ∀ now, StoredOrder.remaining_freshness
          { order := o, placed_at := t, current_temp := SHELF } now =
        u64ToI64 o.freshness - (((now - t) / 1000000 : Nat) : Int) * 2) := by
  have hnotfull : ¬ (k.shelf.length ≥ SHELF_CAPACITY) := not_le.mpr hshelf
  refine ⟨{ cooler := k.cooler, heater := k.heater,
            shelf := mapInsert o.id { order := o, placed_at := t, current_temp := SHELF } k.shelf,
            shelf_queue := heapPush
              { order_id := o.id,
                expires_at := Kitchen.calculate_expiration
                  { order := o, placed_at := t, current_temp := SHELF } t } k.shelf_queue,
            actions := k.actions ++ [{ timestamp := max t (k.last_timestamp + 1), id := o.id,
                                       action := PLACE, target := SHELF }],
            last_timestamp := max t (k.last_timestamp + 1) }, ?_, rfl, rfl, rfl, rfl,
    storage_temp_other, ?_⟩
  · simp [Kitchen.place_order, h1, h2, Kitchen.try_place_on_shelf, hnotfull,
      Kitchen.record_action]
  · intro hroom now
    simp [StoredOrder.remaining_freshness, storage_temp_shelf, hroom,
      DEGRADATION_RATE_NON_IDEAL]

/-- C2: pickup searches cooler, then heater, then shelf; the first hit is
removed and yields exactly one `discard` (expired) or `pickup` action on
that storage; an absent id leaves the whole kitchen state (log included)
unchanged. -/
theorem claim_C2 (k : Kitchen) (oid : String) (t : Nat) :
    ((k.cooler.find? (fun o => o.order.id = oid) = none ∧
      k.heater.find? (fun o => o.order.id = oid) = none ∧
      mapLookup oid k.shelf = none) → k.pickup_order oid t = k) ∧
    (∀ s, k.cooler.find? (fun o => o.order.id = oid) = some s →
      k.pickup_order oid t = { k with
        cooler := k.cooler.eraseP (fun o => o.order.id = oid),
        actions := k.actions ++ [{ timestamp := max t (k.last_timestamp + 1), id := oid,
                                   action := if s.is_expired t then DISCARD else PICKUP,
                                   target := COOLER }],
        last_timestamp := max t (k.last_timestamp + 1) }) ∧
    (k.cooler.find? (fun o => o.order.id = oid) = none →
      ∀ s, k.heater.find? (fun o => o.order.id = oid) = some s →
      k.pickup_order oid t = { k with
        heater := k.heater.eraseP (fun o => o.order.id = oid),
        actions := k.actions ++ [{ timestamp := max t (k.last_timestamp + 1), id := oid,
                                   action := if s.is_expired t then DISCARD else PICKUP,
                                   target := HEATER }],
        last_timestamp := max t (k.last_timestamp + 1) }) ∧
    (k.cooler.find? (fun o => o.order.id = oid) = none →
      k.heater.find? (fun o => o.order.id = oid) = none →
      ∀ s, mapLookup oid k.shelf = some s →
      k.pickup_order oid t = { k with
        shelf := mapErase oid k.shelf,
        shelf_queue := k.shelf_queue.filter (fun e => e.order_id ≠ oid),
        actions := k.actions ++ [{ timestamp := max t (k.last_timestamp + 1), id := oid,
                                   action := if s.is_expired t then DISCARD else PICKUP,
                                   target := SHELF }],
        last_timestamp := max t (k.last_timestamp + 1) }) := by
  refine ⟨?_, ?_, ?_, ?_⟩
  · rintro ⟨hc, hh, hs⟩
    simp [Kitchen.pickup_order, hc, hh, hs]
  · intro s hc
    by_cases hexp : s.is_expired t = true <;>
      simp [Kitchen.pickup_order, hc, hexp, Kitchen.record_action]
  · intro hc s hh
    by_cases hexp : s.is_expired t = true <;>
      simp [Kitchen.pickup_order, hc, hh, hexp, Kitchen.record_action]
  · intro hc hh s hs
    by_cases hexp : s.is_expired t = true <;>
      simp [Kitchen.pickup_order, hc, hh, hs, hexp, Kitchen.record_action]

/-- Concrete data for the C7/C9/C2 witnesses. -/
def storedC7 : StoredOrder :=
  { order := { id := "m", name := "m", temp := COLD, price := 0, freshness := 8 },
    placed_at := 100, current_temp := COOLER }

def kitchenC7 : Kitchen :=
  { cooler := [storedC7], heater := [], shelf := [], shelf_queue := [],
    actions := [], last_timestamp := 0 }

theorem claim_C7_witness :
    ∃ bk, kitchenC7.try_move_to_shelf_from_storage COOLER 50 = some (true, bk) ∧
      bk.shelf_queue = heapPush { order_id := storedC7.order.id,
                                  expires_at := storedC7.placed_at +
                                    storedC7.order.freshness * 1000000 /
                                      (if storedC7.order.temp = ROOM then 1 else 2) }
        kitchenC7.shelf_queue ∧
      Kitchen.calculate_expiration { storedC7 with current_temp := SHELF } storedC7.placed_at =
        storedC7.placed_at + storedC7.order.freshness * 1000000 /
          (if storedC7.order.temp = ROOM then 1 else 2) :=
  claim_C7 kitchenC7 COOLER 50 storedC7 [] (by decide) (by decide) (by decide)

def orderC9 : Order := { id := "r", name := "r", temp := "frozen", price := 0, freshness := 4 }

theorem claim_C9_witness :
    ∃ k2, Kitchen.new.place_order orderC9 9 = some k2 ∧
      k2.cooler = Kitchen.new.cooler ∧ k2.heater = Kitchen.new.heater ∧
      k2.shelf = mapInsert orderC9.id
        { order := orderC9, placed_at := 9, current_temp := SHELF } Kitchen.new.shelf ∧
      k2.actions = Kitchen.new.actions ++
        [{ timestamp := max 9 (Kitchen.new.last_timestamp + 1), id := orderC9.id,
           action := PLACE, target := SHELF }] ∧
      (∀ loc, loc ≠ HEATER → loc ≠ COOLER → StoredOrder.get_storage_temp loc = ROOM) ∧
      (orderC9.temp ≠ ROOM → ∀ now, StoredOrder.remaining_freshness
          { order := orderC9, placed_at := 9, current_temp := SHELF } now =
        u64ToI64 orderC9.freshness - (((now - 9) / 1000000 : Nat) : Int) * 2) :=
  claim_C9 Kitchen.new orderC9 9 (by decide) (by decide) (by decide)

def storedA : StoredOrder :=
  { order := { id := "a", name := "a", temp := COLD, price := 0, freshness := 60 },
    placed_at := 0, current_temp := COOLER }

def storedB : StoredOrder :=
  { order := { id := "b", name := "b", temp := HOT, price := 0, freshness := 60 },
    placed_at := 0, current_temp := HEATER }

def storedCsh : StoredOrder :=
  { order := { id := "c", name := "c", temp := ROOM, price := 0, freshness := 60 },
    placed_at := 0, current_temp := SHELF }

def absentId : String := "zz"

def kitchenC2 : Kitchen :=
  { cooler := [storedA], heater := [storedB],
    shelf := [(storedCsh.order.id, storedCsh)],
    shelf_queue := [{ order_id := storedCsh.order.id, expires_at := 60000000 }],
    actions := [], last_timestamp := 0 }

theorem claim_C2_witness :
    (kitchenC2.pickup_order absentId 5 = kitchenC2) ∧
    (kitchenC2.pickup_order storedA.order.id 5 = { kitchenC2 with
      cooler := kitchenC2.cooler.eraseP (fun o => o.order.id = storedA.order.id),
      actions := kitchenC2.actions ++
        [{ timestamp := max 5 (kitchenC2.last_timestamp + 1), id := storedA.order.id,
           action := if storedA.is_expired 5 then DISCARD else PICKUP, target := COOLER }],
      last_timestamp := max 5 (kitchenC2.last_timestamp + 1) }) ∧
    (kitchenC2.pickup_order storedB.order.id 5 = { kitchenC2 with
      heater := kitchenC2.heater.eraseP (fun o => o.order.id = storedB.order.id),
      actions := kitchenC2.actions ++
        [{ timestamp := max 5 (kitchenC2.last_timestamp + 1), id := storedB.order.id,
           action := if storedB.is_expired 5 then DISCARD else PICKUP, target := HEATER }],
      last_timestamp := max 5 (kitchenC2.last_timestamp + 1) }) ∧
    (kitchenC2.pickup_order storedCsh.order.id 5 = { kitchenC2 with
      shelf := mapErase storedCsh.order.id kitchenC2.shelf,
      shelf_queue := kitchenC2.shelf_queue.filter
        (fun e => e.order_id ≠ storedCsh.order.id),
      actions := kitchenC2.actions ++
        [{ timestamp := max 5 (kitchenC2.last_timestamp + 1), id := storedCsh.order.id,
           action := if storedCsh.is_expired 5 then DISCARD else PICKUP, target := SHELF }],
      last_timestamp := max 5 (kitchenC2.last_timestamp + 1) }) :=
  ⟨(claim_C2 kitchenC2 absentId 5).1 (by decide),
   (claim_C2 kitchenC2 storedA.order.id 5).2.1 storedA (by decide),
   (claim_C2 kitchenC2 storedB.order.id 5).2.2.1 (by decide) storedB (by decide),
   (claim_C2 kitchenC2 storedCsh.order.id 5).2.2.2 (by decide) (by decide) storedCsh (by decide)⟩

/-! Lemmas about the association-list shelf and the eviction loop. -/

lemma mapLookup_isSome_of_mem {m : List (String × StoredOrder)} {p : String × StoredOrder}
    (hp : p ∈ m) : (mapLookup p.1 m).isSome := by
  rw [mapLookup]
  cases hfind : m.find? (fun q => q.1 = p.1) with
  | some q => simp
  | none =>
    exfalso
    have := List.find?_eq_none.mp hfind p hp
    simp at this

lemma mapLookup_mem {m : List (String × StoredOrder)} {key : String} {v : StoredOrder}
    (h : mapLookup key m = some v) : (key, v) ∈ m := by
  rw [mapLookup] at h
  cases hfind : m.find? (fun q => q.1 = key) with
  | none => rw [hfind] at h; exact absurd h (by simp)
  | some q =>
    rw [hfind] at h
    have hq : q.2 = v := by simpa using h
    have hmem := List.mem_of_find?_eq_some hfind
    have hkey : q.1 = key := by simpa using List.find?_some hfind
    obtain ⟨q1, q2⟩ := q
    cases hkey
    cases hq
    exact hmem

lemma mapLookup_of_mem_nodup {m : List (String × StoredOrder)} {a : String} {b : StoredOrder}
    (hnd : (m.map Prod.fst).Nodup) (hp : (a, b) ∈ m) : mapLookup a m = some b := by
  induction m with
  | nil => cases hp
  | cons x xs ih =>
    rw [List.map_cons, List.nodup_cons] at hnd
    rcases List.mem_cons.mp hp with h | h
    · rw [mapLookup, List.find?_cons_of_pos _ (by simp [h.symm])]
      simp [h.symm]
    · have hne : ¬ (x.1 = a) := by
        intro he
        exact hnd.1 (he.symm ▸ (List.mem_map.mpr ⟨(a, b), h, rfl⟩))
      rw [mapLookup, List.find?_cons_of_neg _ (by simp [hne])]
      simpa [mapLookup] using ih hnd.2 h

lemma discardLoop_shelf_nil (q : List OrderEntry) : discardLoop [] q = none := by
  induction q with
  | nil => rfl
  | cons e rest ih => simp [discardLoop, mapLookup, ih]

/-- Under the shelf-queue invariants, the eviction loop finds a victim that
is on the shelf and whose projected expiration is minimal among shelf
occupants, removes it, and leaves the rest of the queue. -/
lemma discardLoop_spec {shelf : List (String × StoredOrder)} {q : List OrderEntry}
    (hsorted : q.Pairwise (fun a b => a.expires_at ≤ b.expires_at))
    (hkeys : ∀ e ∈ q, ∀ p ∈ shelf, p.1 = e.order_id →
      e.expires_at = Kitchen.calculate_expiration p.2 p.2.placed_at)
    (hcover : ∀ p ∈ shelf, ∃ e ∈ q, e.order_id = p.1)
    (hne : shelf ≠ []) :
    ∃ v sv q2, discardLoop shelf q = some (v, mapErase v shelf, q2) ∧
      mapLookup v shelf = some sv ∧
      ∀ p ∈ shelf, Kitchen.calculate_expiration sv sv.placed_at ≤
        Kitchen.calculate_expiration p.2 p.2.placed_at := by
  induction q with
  | nil =>
    obtain ⟨p0, hp0⟩ := List.exists_mem_of_ne_nil shelf hne
    rcases hcover p0 hp0 with ⟨e, he, _⟩
    cases he
  | cons e rest ih =>
    rcases List.pairwise_cons.mp hsorted with ⟨hefirst, hrest⟩
    by_cases hv : (mapLookup e.order_id shelf).isSome
    · obtain ⟨sv, hsv⟩ := Option.isSome_iff_exists.mp hv
      refine ⟨e.order_id, sv, rest, by simp [discardLoop, hv], hsv, ?_⟩
      intro p hp
      have hkey_e : e.expires_at = Kitchen.calculate_expiration sv sv.placed_at :=
        hkeys e (List.mem_cons_self e rest) (e.order_id, sv) (mapLookup_mem hsv) rfl
      rcases hcover p hp with ⟨ep, hep, hepid⟩
      have hkey_p : ep.expires_at = Kitchen.calculate_expiration p.2 p.2.placed_at :=
        hkeys ep hep p hp hepid.symm
      have hle : e.expires_at ≤ ep.expires_at := by
        rcases List.mem_cons.mp hep with h | h
        · rw [h]
        · exact hefirst ep h
      rw [← hkey_e, ← hkey_p]
      exact hle
    · have hcover2 : ∀ p ∈ shelf, ∃ e2 ∈ rest, e2.order_id = p.1 := by
        intro p hp
        rcases hcover p hp with ⟨e2, he2, hid⟩
        rcases List.mem_cons.mp he2 with h | h
        · exfalso
          apply hv
          rw [h] at hid
          rw [hid]
          exact mapLookup_isSome_of_mem hp
        · exact ⟨e2, h, hid⟩
      have hkeys2 : ∀ e2 ∈ rest, ∀ p ∈ shelf, p.1 = e2.order_id →
          e2.expires_at = Kitchen.calculate_expiration p.2 p.2.placed_at := by
        intro e2 he2 p hp hid
        exact hkeys e2 (List.mem_cons_of_mem e he2) p hp hid
      rcases ih hrest hkeys2 hcover2 with ⟨v, sv, q2, heq, hsv, hmin⟩
      exact ⟨v, sv, q2, by simp [discardLoop, hv, heq], hsv, hmin⟩

/-- C6: the eviction victim is a shelf occupant with the earliest projected
`expires_at` among those presently on the shelf (stale queue entries are
skipped), and an eviction requested while the shelf is empty aborts the
process (`none`) instead of returning. -/
theorem claim_C6 (k : Kitchen) (t : Nat)
    (hsorted : k.shelf_queue.Pairwise (fun a b => a.expires_at ≤ b.expires_at))
    (hkeys : ∀ e ∈ k.shelf_queue, ∀ p ∈ k.shelf, p.1 = e.order_id →
      e.expires_at = Kitchen.calculate_expiration p.2 p.2.placed_at)
    (hcover : ∀ p ∈ k.shelf, ∃ e ∈ k.shelf_queue, e.order_id = p.1) :
    (k.shelf = [] → k.discard_from_shelf t = none) ∧
    (k.shelf ≠ [] → ∃ v sv q2, mapLookup v k.shelf = some sv ∧
      (∀ p ∈ k.shelf, Kitchen.calculate_expiration sv sv.placed_at ≤
        Kitchen.calculate_expiration p.2 p.2.placed_at) ∧
      k.discard_from_shelf t = some { k with
        shelf := mapErase v k.shelf,
        shelf_queue := q2,
        actions := k.actions ++ [{ timestamp := max t (k.last_timestamp + 1), id := v,
                                   action := DISCARD, target := SHELF }],
        last_timestamp := max t (k.last_timestamp + 1) }) := by
  constructor
  · intro hsh
    rw [Kitchen.discard_from_shelf, hsh, discardLoop_shelf_nil]
  · intro hne
    rcases discardLoop_spec hsorted hkeys hcover hne with ⟨v, sv, q2, heq, hsv, hmin⟩
    refine ⟨v, sv, q2, hsv, hmin, ?_⟩
    rw [Kitchen.discard_from_shelf, heq]
    rfl

def storedP : StoredOrder :=
  { order := { id := "p", name := "p", temp := ROOM, price := 0, freshness := 5 },
    placed_at := 0, current_temp := SHELF }

def storedQ : StoredOrder :=
  { order := { id := "q", name := "q", temp := ROOM, price := 0, freshness := 3 },
    placed_at := 0, current_temp := SHELF }

def kitchenC6 : Kitchen :=
  { cooler := [], heater := [],
    shelf := [(storedP.order.id, storedP), (storedQ.order.id, storedQ)],
    shelf_queue := [{ order_id := storedQ.order.id, expires_at := 3000000 },
                    { order_id := storedP.order.id, expires_at := 5000000 }],
    actions := [], last_timestamp := 0 }

def kitchenStale : Kitchen :=
  { cooler := [], heater := [], shelf := [],
    shelf_queue := [{ order_id := "ghost", expires_at := 1 }],
    actions := [], last_timestamp := 0 }

theorem claim_C6_witness :
    (kitchenStale.discard_from_shelf 7 = none) ∧
    (∃ v sv q2, mapLookup v kitchenC6.shelf = some sv ∧
      (∀ p ∈ kitchenC6.shelf, Kitchen.calculate_expiration sv sv.placed_at ≤
        Kitchen.calculate_expiration p.2 p.2.placed_at) ∧
      kitchenC6.discard_from_shelf 7 = some { kitchenC6 with
        shelf := mapErase v kitchenC6.shelf,
        shelf_queue := q2,
        actions := kitchenC6.actions ++
          [{ timestamp := max 7 (kitchenC6.last_timestamp + 1), id := v,
             action := DISCARD, target := SHELF }],
        last_timestamp := max 7 (kitchenC6.last_timestamp + 1) }) :=
  ⟨(claim_C6 kitchenStale 7 (by decide) (by decide) (by decide)).1 rfl,
   (claim_C6 kitchenC6 7 (by decide) (by decide) (by decide)).2 (by decide)⟩

/-! Regime lemmas: the exact result of `place_order` on each path of the
placement cascade. -/

lemma place_order_hot_room (k : Kitchen) (o : Order) (t : Nat)
    (h1 : o.temp = HOT) (hlen : k.heater.length < HEATER_CAPACITY) :
    k.place_order o t = some { k with
      heater := k.heater ++ [{ order := o, placed_at := t, current_temp := HEATER }],
      actions := k.actions ++ [{ timestamp := max t (k.last_timestamp + 1), id := o.id,
                                 action := PLACE, target := HEATER }],
      last_timestamp := max t (k.last_timestamp + 1) } := by
  have hne : ¬ (HEATER = COOLER) := by decide
  simp [Kitchen.place_order, h1, HOT, COLD, Kitchen.try_place_in_storage, hne,
    not_le.mpr hlen, Kitchen.record_action]

lemma place_order_cold_room (k : Kitchen) (o : Order) (t : Nat)
    (h1 : o.temp = COLD) (hlen : k.cooler.length < COOLER_CAPACITY) :
    k.place_order o t = some { k with
      cooler := k.cooler ++ [{ order := o, placed_at := t, current_temp := COOLER }],
      actions := k.actions ++ [{ timestamp := max t (k.last_timestamp + 1), id := o.id,
                                 action := PLACE, target := COOLER }],
      last_timestamp := max t (k.last_timestamp + 1) } := by
  simp [Kitchen.place_order, h1, HOT, COLD, Kitchen.try_place_in_storage,
    not_le.mpr hlen, Kitchen.record_action]

lemma place_order_hot_shelf (k : Kitchen) (o : Order) (t : Nat)
    (h1 : o.temp = HOT) (hlen : k.heater.length ≥ HEATER_CAPACITY)
    (hshelf : k.shelf.length < SHELF_CAPACITY) :
    k.place_order o t = some { k with
      shelf := mapInsert o.id { order := o, placed_at := t, current_temp := SHELF } k.shelf,
      shelf_queue := heapPush
        { order_id := o.id,
          expires_at := Kitchen.calculate_expiration
            { order := o, placed_at := t, current_temp := SHELF } t } k.shelf_queue,
      actions := k.actions ++ [{ timestamp := max t (k.last_timestamp + 1), id := o.id,
                                 action := PLACE, target := SHELF }],
      last_timestamp := max t (k.last_timestamp + 1) } := by
  have hne : ¬ (HEATER = COOLER) := by decide
  simp [Kitchen.place_order, h1, HOT, COLD, Kitchen.try_place_in_storage, hne, hlen,
    Kitchen.try_place_on_shelf, not_le.mpr hshelf, Kitchen.record_action]

lemma place_order_cold_shelf (k : Kitchen) (o : Order) (t : Nat)
    (h1 : o.temp = COLD) (hlen : k.cooler.length ≥ COOLER_CAPACITY)
    (hshelf : k.shelf.length < SHELF_CAPACITY) :
    k.place_order o t = some { k with
      shelf := mapInsert o.id { order := o, placed_at := t, current_temp := SHELF } k.shelf,
      shelf_queue := heapPush
        { order_id := o.id,
          expires_at := Kitchen.calculate_expiration
            { order := o, placed_at := t, current_temp := SHELF } t } k.shelf_queue,
      actions := k.actions ++ [{ timestamp := max t (k.last_timestamp + 1), id := o.id,
                                 action := PLACE, target := SHELF }],
      last_timestamp := max t (k.last_timestamp + 1) } := by
  simp [Kitchen.place_order, h1, HOT, COLD, Kitchen.try_place_in_storage, hlen,
    Kitchen.try_place_on_shelf, not_le.mpr hshelf, Kitchen.record_action]

lemma place_order_other_room (k : Kitchen) (o : Order) (t : Nat)
    (h1 : o.temp ≠ HOT) (h2 : o.temp ≠ COLD)
    (hshelf : k.shelf.length < SHELF_CAPACITY) :
    k.place_order o t = some { k with
      shelf := mapInsert o.id { order := o, placed_at := t, current_temp := SHELF } k.shelf,
      shelf_queue := heapPush
        { order_id := o.id,
          expires_at := Kitchen.calculate_expiration
            { order := o, placed_at := t, current_temp := SHELF } t } k.shelf_queue,
      actions := k.actions ++ [{ timestamp := max t (k.last_timestamp + 1), id := o.id,
                                 action := PLACE, target := SHELF }],
      last_timestamp := max t (k.last_timestamp + 1) } := by
  simp [Kitchen.place_order, h1, h2, Kitchen.try_place_on_shelf,
    not_le.mpr hshelf, Kitchen.record_action]

lemma place_order_hot_cascade (k : Kitchen) (o : Order) (t : Nat)
    (front : StoredOrder) (rest : List StoredOrder) (v : String) (q2 : List OrderEntry)
    (h1 : o.temp = HOT)
    (hheater : k.heater = front :: rest)
    (hlen : k.heater.length = HEATER_CAPACITY)
    (hshelf : k.shelf.length ≥ SHELF_CAPACITY)
    (hloop : discardLoop k.shelf k.shelf_queue = some (v, mapErase v k.shelf, q2)) :
    k.place_order o t = some {
      cooler := k.cooler,
      heater := rest ++ [{ order := o, placed_at := t, current_temp := HEATER }],
      shelf := mapInsert front.order.id { front with current_temp := SHELF }
        (mapErase v k.shelf),
      shelf_queue := heapPush
        { order_id := front.order.id,
          expires_at := Kitchen.calculate_expiration
            { front with current_temp := SHELF } front.placed_at } q2,
      actions := k.actions ++
        [{ timestamp := max t (k.last_timestamp + 1), id := v,
           action := DISCARD, target := SHELF },
         { timestamp := max t (k.last_timestamp + 1) + 1, id := front.order.id,
           action := MOVE, target := SHELF },
         { timestamp := max t (k.last_timestamp + 1) + 1 + 1, id := o.id,
           action := PLACE, target := HEATER }],
      last_timestamp := max t (k.last_timestamp + 1) + 1 + 1 } := by
  have hne : ¬ (HEATER = COOLER) := by decide
  have hrest : ¬ (rest.length ≥ HEATER_CAPACITY) := by
    rw [hheater] at hlen
    simp only [List.length_cons] at hlen
    omega
  have hge2 : HEATER_CAPACITY ≤ rest.length + 1 := by
    rw [hheater] at hlen
    simp only [List.length_cons] at hlen
    omega
  have hB1 : max t (max t (k.last_timestamp + 1) + 1) = max t (k.last_timestamp + 1) + 1 :=
    max_eq_right (Nat.le_succ_of_le (le_max_left t (k.last_timestamp + 1)))
  have hB2 : max t (max t (k.last_timestamp + 1) + 1 + 1) =
      max t (k.last_timestamp + 1) + 1 + 1 :=
    max_eq_right (Nat.le_succ_of_le (Nat.le_succ_of_le (le_max_left t (k.last_timestamp + 1))))
  simp [Kitchen.place_order, h1, HOT, COLD, Kitchen.try_place_in_storage, hne, hge2,
    Kitchen.try_place_on_shelf, hshelf, Kitchen.try_move_to_shelf_from_storage,
    Kitchen.discard_from_shelf, hloop, hheater, hrest,
    Kitchen.force_place_in_storage, Kitchen.record_action, hB1, hB2]

lemma place_order_cold_cascade (k : Kitchen) (o : Order) (t : Nat)
    (front : StoredOrder) (rest : List StoredOrder) (v : String) (q2 : List OrderEntry)
    (h1 : o.temp = COLD)
    (hcooler : k.cooler = front :: rest)
    (hlen : k.cooler.length = COOLER_CAPACITY)
    (hshelf : k.shelf.length ≥ SHELF_CAPACITY)
    (hloop : discardLoop k.shelf k.shelf_queue = some (v, mapErase v k.shelf, q2)) :
    k.place_order o t = some {
      cooler := rest ++ [{ order := o, placed_at := t, current_temp := COOLER }],
      heater := k.heater,
      shelf := mapInsert front.order.id { front with current_temp := SHELF }
        (mapErase v k.shelf),
      shelf_queue := heapPush
        { order_id := front.order.id,
          expires_at := Kitchen.calculate_expiration
            { front with current_temp := SHELF } front.placed_at } q2,
      actions := k.actions ++
        [{ timestamp := max t (k.last_timestamp + 1), id := v,
           action := DISCARD, target := SHELF },
         { timestamp := max t (k.last_timestamp + 1) + 1, id := front.order.id,
           action := MOVE, target := SHELF },
         { timestamp := max t (k.last_timestamp + 1) + 1 + 1, id := o.id,
           action := PLACE, target := COOLER }],
      last_timestamp := max t (k.last_timestamp + 1) + 1 + 1 } := by
  have hrest : ¬ (rest.length ≥ COOLER_CAPACITY) := by
    rw [hcooler] at hlen
    simp only [List.length_cons] at hlen
    omega
  have hge2 : COOLER_CAPACITY ≤ rest.length + 1 := by
    rw [hcooler] at hlen
    simp only [List.length_cons] at hlen
    omega
  have hB1 : max t (max t (k.last_timestamp + 1) + 1) = max t (k.last_timestamp + 1) + 1 :=
    max_eq_right (Nat.le_succ_of_le (le_max_left t (k.last_timestamp + 1)))
  have hB2 : max t (max t (k.last_timestamp + 1) + 1 + 1) =
      max t (k.last_timestamp + 1) + 1 + 1 :=
    max_eq_right (Nat.le_succ_of_le (Nat.le_succ_of_le (le_max_left t (k.last_timestamp + 1))))
  simp [Kitchen.place_order, h1, HOT, COLD, Kitchen.try_place_in_storage, hge2,
    Kitchen.try_place_on_shelf, hshelf, Kitchen.try_move_to_shelf_from_storage,
    Kitchen.discard_from_shelf, hloop, hcooler, hrest,
    Kitchen.force_place_in_storage, Kitchen.record_action, hB1, hB2]

lemma place_order_other_evict (k : Kitchen) (o : Order) (t : Nat)
    (v : String) (q2 : List OrderEntry)
    (h1 : o.temp ≠ HOT) (h2 : o.temp ≠ COLD)
    (hshelf : k.shelf.length ≥ SHELF_CAPACITY)
    (hloop : discardLoop k.shelf k.shelf_queue = some (v, mapErase v k.shelf, q2))
    (hlen2 : ¬ ((mapErase v k.shelf).length ≥ SHELF_CAPACITY)) :
    k.place_order o t = some {
      cooler := k.cooler, heater := k.heater,
      shelf := mapInsert o.id { order := o, placed_at := t, current_temp := SHELF }
        (mapErase v k.shelf),
      shelf_queue := heapPush
        { order_id := o.id,
          expires_at := Kitchen.calculate_expiration
            { order := o, placed_at := t, current_temp := SHELF } t } q2,
      actions := k.actions ++
        [{ timestamp := max t (k.last_timestamp + 1), id := v,
           action := DISCARD, target := SHELF },
         { timestamp := max t (k.last_timestamp + 1) + 1, id := o.id,
           action := PLACE, target := SHELF }],
      last_timestamp := max t (k.last_timestamp + 1) + 1 } := by
  have hB1 : max t (max t (k.last_timestamp + 1) + 1) = max t (k.last_timestamp + 1) + 1 :=
    max_eq_right (Nat.le_succ_of_le (le_max_left t (k.last_timestamp + 1)))
  simp [Kitchen.place_order, h1, h2, Kitchen.try_place_on_shelf, hshelf,
    Kitchen.discard_from_shelf, hloop, Kitchen.force_place_on_shelf, hlen2,
    Kitchen.record_action, hB1]

lemma mem_mapErase {m : List (String × StoredOrder)} {a : String}
    {p : String × StoredOrder} (h : p ∈ mapErase a m) : p ∈ m :=
  (List.mem_filter.mp h).1

lemma mapErase_length_lt {m : List (String × StoredOrder)} {key : String}
    (h : (mapLookup key m).isSome) : (mapErase key m).length < m.length := by
  obtain ⟨v, hv⟩ := Option.isSome_iff_exists.mp h
  have hmem := mapLookup_mem hv
  exact List.length_filter_lt_length_iff_exists.mpr ⟨(key, v), hmem, by simp⟩

lemma mapLookup_insert_self (a : String) (v : StoredOrder)
    (m : List (String × StoredOrder)) : mapLookup a (mapInsert a v m) = some v := by
  rw [mapLookup, mapInsert, List.find?_cons_of_pos _ (by simp)]
  rfl

/-- When some queue entry names a shelf occupant, the eviction loop returns
a victim that is on the shelf. -/
lemma discardLoop_found {shelf : List (String × StoredOrder)} {q : List OrderEntry}
    (h : ∃ e ∈ q, (mapLookup e.order_id shelf).isSome) :
    ∃ v q2, discardLoop shelf q = some (v, mapErase v shelf, q2) ∧
      (mapLookup v shelf).isSome := by
  induction q with
  | nil => rcases h with ⟨e, he, _⟩; cases he
  | cons e rest ih =>
    by_cases hv : (mapLookup e.order_id shelf).isSome
    · exact ⟨e.order_id, rest, by simp [discardLoop, hv], hv⟩
    · rcases h with ⟨e2, he2, hs2⟩
      have h2 : ∃ e3 ∈ rest, (mapLookup e3.order_id shelf).isSome := by
        rcases List.mem_cons.mp he2 with hh | hh
        · exact absurd (hh ▸ hs2) hv
        · exact ⟨e2, hh, hs2⟩
      rcases ih h2 with ⟨v, q2, heq, hvs⟩
      exact ⟨v, q2, by simp [discardLoop, hv, heq], hvs⟩

lemma lookupId_nil_parts {k : Kitchen} {oid : String} (h : k.lookupId oid = []) :
    k.cooler.filter (fun s => s.order.id = oid) = [] ∧
    k.heater.filter (fun s => s.order.id = oid) = [] ∧
    k.shelf.filter (fun p => p.1 = oid) = [] := by
  rw [Kitchen.lookupId] at h
  obtain ⟨h12, h3⟩ := List.append_eq_nil.mp h
  obtain ⟨h1, h2a⟩ := List.append_eq_nil.mp h12
  exact ⟨h1, h2a, List.map_eq_nil_iff.mp h3⟩

/-- Full characterization of one `place_order` call from a state satisfying
the capacity and queue-coverage invariants, with a fresh order id: the call
cannot panic, stores the order exactly once with the caller's `placed_at`,
and appends a nonempty suffix of place/move/discard actions, at least one
of them a `place` of this order, all timestamped `≥ t`. -/
lemma place_order_master (k : Kitchen) (o : Order) (t : Nat)
    (hc : k.cooler.length ≤ COOLER_CAPACITY)
    (hh : k.heater.length ≤ HEATER_CAPACITY)
    (hs : k.shelf.length ≤ SHELF_CAPACITY)
    (hcover : ∀ p ∈ k.shelf, ∃ e ∈ k.shelf_queue, e.order_id = p.1)
    (hfree : k.lookupId o.id = []) :
    ∃ k2 suffix loc,
      k.place_order o t = some k2 ∧
      k2.lookupId o.id = [{ order := o, placed_at := t, current_temp := loc }] ∧
      k2.actions = k.actions ++ suffix ∧
      suffix ≠ [] ∧
      (∃ a ∈ suffix, a.action = PLACE ∧ a.id = o.id) ∧
      (∀ a ∈ suffix, t ≤ a.timestamp ∧
        (a.action = PLACE ∨ a.action = MOVE ∨ a.action = DISCARD)) := by
  obtain ⟨h1c, h1h, h1s⟩ := lookupId_nil_parts hfree
  have htB : t ≤ max t (k.last_timestamp + 1) := le_max_left _ _
  by_cases h1 : o.temp = HOT
  · by_cases hlt : k.heater.length < HEATER_CAPACITY
    · refine ⟨_, _, HEATER, place_order_hot_room k o t h1 hlt, ?_, rfl, by simp, by simp, ?_⟩
      · simp [Kitchen.lookupId, List.filter_append, h1c, h1h, h1s]
      · intro a ha
        simp only [List.mem_singleton] at ha
        subst ha
        exact ⟨htB, Or.inl rfl⟩
    · by_cases hsh : k.shelf.length < SHELF_CAPACITY
      · refine ⟨_, _, SHELF, place_order_hot_shelf k o t h1 (not_lt.mp hlt) hsh,
          ?_, rfl, by simp, by simp, ?_⟩
        · have hsub : ((mapErase o.id k.shelf).filter (fun p => p.1 = o.id)) = [] :=
            List.filter_eq_nil_iff.mpr
              (fun p hp => List.filter_eq_nil_iff.mp h1s p (mem_mapErase hp))
          simp [Kitchen.lookupId, mapInsert, List.filter_cons, h1c, h1h, hsub]
        · intro a ha
          simp only [List.mem_singleton] at ha
          subst ha
          exact ⟨htB, Or.inl rfl⟩
      · have hlenEq : k.heater.length = HEATER_CAPACITY :=
          le_antisymm hh (not_lt.mp hlt)
        have hshge : k.shelf.length ≥ SHELF_CAPACITY := not_lt.mp hsh
        have hne : k.shelf ≠ [] := by
          intro hnil
          rw [hnil] at hshge
          simp [SHELF_CAPACITY] at hshge
        obtain ⟨p0, hp0⟩ := List.exists_mem_of_ne_nil _ hne
        rcases hcover p0 hp0 with ⟨e0, he0, hid0⟩
        rcases discardLoop_found ⟨e0, he0, by
          rw [hid0]; exact mapLookup_isSome_of_mem hp0⟩ with ⟨v, q2, hloop, hvsome⟩
        cases hhe : k.heater with
        | nil => rw [hhe] at hlenEq; simp [HEATER_CAPACITY] at hlenEq
        | cons front rest =>
          have hfr : front ∈ k.heater := by rw [hhe]; exact List.mem_cons_self front rest
          have hfrne : ¬ (front.order.id = o.id) := by
            have := List.filter_eq_nil_iff.mp h1h front hfr
            simpa using this
          refine ⟨_, _, HEATER,
            place_order_hot_cascade k o t front rest v q2 h1 hhe hlenEq hshge hloop,
            ?_, rfl, by simp, ?_, ?_⟩
          · have hrest : (rest.filter (fun s => s.order.id = o.id)) = [] :=
              List.filter_eq_nil_iff.mpr (fun s hsr =>
                List.filter_eq_nil_iff.mp h1h s (by rw [hhe]; exact List.mem_cons_of_mem _ hsr))
            have hsub : ((mapErase front.order.id (mapErase v k.shelf)).filter
                (fun p => p.1 = o.id)) = [] :=
              List.filter_eq_nil_iff.mpr (fun p hp =>
                List.filter_eq_nil_iff.mp h1s p (mem_mapErase (mem_mapErase hp)))
            simp [Kitchen.lookupId, mapInsert, List.filter_append, List.filter_cons,
              h1c, hrest, hfrne, hsub]
          · exact ⟨{ timestamp := max t (k.last_timestamp + 1) + 1 + 1, id := o.id,
                     action := PLACE, target := HEATER }, by simp, rfl, rfl⟩
          · intro a ha
            simp only [List.mem_cons, List.mem_singleton, List.not_mem_nil, or_false] at ha
            rcases ha with rfl | rfl | rfl
            · exact ⟨htB, Or.inr (Or.inr rfl)⟩
            · exact ⟨le_trans htB (Nat.le_succ _), Or.inr (Or.inl rfl)⟩
            · exact ⟨le_trans (le_trans htB (Nat.le_succ _)) (Nat.le_succ _), Or.inl rfl⟩
  · by_cases h2 : o.temp = COLD
    · by_cases hlt : k.cooler.length < COOLER_CAPACITY
      · refine ⟨_, _, COOLER, place_order_cold_room k o t h2 hlt, ?_, rfl, by simp,
          by simp, ?_⟩
        · simp [Kitchen.lookupId, List.filter_append, h1c, h1h, h1s]
        · intro a ha
          simp only [List.mem_singleton] at ha
          subst ha
          exact ⟨htB, Or.inl rfl⟩
      · by_cases hsh : k.shelf.length < SHELF_CAPACITY
        · refine ⟨_, _, SHELF, place_order_cold_shelf k o t h2 (not_lt.mp hlt) hsh,
            ?_, rfl, by simp, by simp, ?_⟩
          · have hsub : ((mapErase o.id k.shelf).filter (fun p => p.1 = o.id)) = [] :=
              List.filter_eq_nil_iff.mpr
                (fun p hp => List.filter_eq_nil_iff.mp h1s p (mem_mapErase hp))
            simp [Kitchen.lookupId, mapInsert, List.filter_cons, h1c, h1h, hsub]
          · intro a ha
            simp only [List.mem_singleton] at ha
            subst ha
            exact ⟨htB, Or.inl rfl⟩
        · have hlenEq : k.cooler.length = COOLER_CAPACITY :=
            le_antisymm hc (not_lt.mp hlt)
          have hshge : k.shelf.length ≥ SHELF_CAPACITY := not_lt.mp hsh
          have hne : k.shelf ≠ [] := by
            intro hnil
            rw [hnil] at hshge
            simp [SHELF_CAPACITY] at hshge
          obtain ⟨p0, hp0⟩ := List.exists_mem_of_ne_nil _ hne
          rcases hcover p0 hp0 with ⟨e0, he0, hid0⟩
          rcases discardLoop_found ⟨e0, he0, by
            rw [hid0]; exact mapLookup_isSome_of_mem hp0⟩ with ⟨v, q2, hloop, hvsome⟩
          cases hhe : k.cooler with
          | nil => rw [hhe] at hlenEq; simp [COOLER_CAPACITY] at hlenEq
          | cons front rest =>
            have hfr : front ∈ k.cooler := by rw [hhe]; exact List.mem_cons_self front rest
            have hfrne : ¬ (front.order.id = o.id) := by
              have := List.filter_eq_nil_iff.mp h1c front hfr
              simpa using this
            refine ⟨_, _, COOLER,
              place_order_cold_cascade k o t front rest v q2 h2 hhe hlenEq hshge hloop,
              ?_, rfl, by simp, ?_, ?_⟩
            · have hrest : (rest.filter (fun s => s.order.id = o.id)) = [] :=
                List.filter_eq_nil_iff.mpr (fun s hsr =>
                  List.filter_eq_nil_iff.mp h1c s
                    (by rw [hhe]; exact List.mem_cons_of_mem _ hsr))
              have hsub : ((mapErase front.order.id (mapErase v k.shelf)).filter
                  (fun p => p.1 = o.id)) = [] :=
                List.filter_eq_nil_iff.mpr (fun p hp =>
                  List.filter_eq_nil_iff.mp h1s p (mem_mapErase (mem_mapErase hp)))
              simp [Kitchen.lookupId, mapInsert, List.filter_append, List.filter_cons,
                h1h, hrest, hfrne, hsub]
            · exact ⟨{ timestamp := max t (k.last_timestamp + 1) + 1 + 1, id := o.id,
                       action := PLACE, target := COOLER }, by simp, rfl, rfl⟩
            · intro a ha
              simp only [List.mem_cons, List.mem_singleton, List.not_mem_nil, or_false] at ha
              rcases ha with rfl | rfl | rfl
              · exact ⟨htB, Or.inr (Or.inr rfl)⟩
              · exact ⟨le_trans htB (Nat.le_succ _), Or.inr (Or.inl rfl)⟩
              · exact ⟨le_trans (le_trans htB (Nat.le_succ _)) (Nat.le_succ _), Or.inl rfl⟩
    · by_cases hsh : k.shelf.length < SHELF_CAPACITY
      · refine ⟨_, _, SHELF, place_order_other_room k o t h1 h2 hsh, ?_, rfl, by simp,
          by simp, ?_⟩
        · have hsub : ((mapErase o.id k.shelf).filter (fun p => p.1 = o.id)) = [] :=
            List.filter_eq_nil_iff.mpr
              (fun p hp => List.filter_eq_nil_iff.mp h1s p (mem_mapErase hp))
          simp [Kitchen.lookupId, mapInsert, List.filter_cons, h1c, h1h, hsub]
        · intro a ha
          simp only [List.mem_singleton] at ha
          subst ha
          exact ⟨htB, Or.inl rfl⟩
      · have hshge : k.shelf.length ≥ SHELF_CAPACITY := not_lt.mp hsh
        have hne : k.shelf ≠ [] := by
          intro hnil
          rw [hnil] at hshge
          simp [SHELF_CAPACITY] at hshge
        obtain ⟨p0, hp0⟩ := List.exists_mem_of_ne_nil _ hne
        rcases hcover p0 hp0 with ⟨e0, he0, hid0⟩
        rcases discardLoop_found ⟨e0, he0, by
          rw [hid0]; exact mapLookup_isSome_of_mem hp0⟩ with ⟨v, q2, hloop, hvsome⟩
        have hlen2 : ¬ ((mapErase v k.shelf).length ≥ SHELF_CAPACITY) :=
          not_le.mpr (lt_of_lt_of_le (mapErase_length_lt hvsome) hs)
        refine ⟨_, _, SHELF,
          place_order_other_evict k o t v q2 h1 h2 hshge hloop hlen2,
          ?_, rfl, by simp, ?_, ?_⟩
        · have hsub : ((mapErase o.id (mapErase v k.shelf)).filter
              (fun p => p.1 = o.id)) = [] :=
            List.filter_eq_nil_iff.mpr (fun p hp =>
              List.filter_eq_nil_iff.mp h1s p (mem_mapErase (mem_mapErase hp)))
          simp [Kitchen.lookupId, mapInsert, List.filter_cons, h1c, h1h, hsub]
        · exact ⟨{ timestamp := max t (k.last_timestamp + 1) + 1, id := o.id,
                   action := PLACE, target := SHELF }, by simp, rfl, rfl⟩
        · intro a ha
          simp only [List.mem_cons, List.mem_singleton, List.not_mem_nil, or_false] at ha
          rcases ha with rfl | rfl
          · exact ⟨htB, Or.inr (Or.inr rfl)⟩
          · exact ⟨le_trans htB (Nat.le_succ _), Or.inl rfl⟩

/-- C5: from any state satisfying the capacity bounds and the queue-coverage
invariant, placing an order with a fresh id always succeeds (no panic on any
cascade path), leaves exactly one StoredOrder carrying that id across the
three storages, and appends at least a `place` action plus zero or more
`move`/`discard` actions, all timestamped `≥ t`. -/
theorem claim_C5 (k : Kitchen) (o : Order) (t : Nat)
    (hc : k.cooler.length ≤ COOLER_CAPACITY)
    (hh : k.heater.length ≤ HEATER_CAPACITY)
    (hs : k.shelf.length ≤ SHELF_CAPACITY)
    (hcover : ∀ p ∈ k.shelf, ∃ e ∈ k.shelf_queue, e.order_id = p.1)
    (hfree : k.lookupId o.id = []) :
    ∃ k2 suffix, k.place_order o t = some k2 ∧
      (k2.lookupId o.id).length = 1 ∧
      k2.actions = k.actions ++ suffix ∧ suffix ≠ [] ∧
      (∃ a ∈ suffix, a.action = PLACE) ∧
      (∀ a ∈ suffix, t ≤ a.timestamp ∧
        (a.action = PLACE ∨ a.action = MOVE ∨ a.action = DISCARD)) := by
  rcases place_order_master k o t hc hh hs hcover hfree with
    ⟨k2, suffix, loc, hp, hl, ha, hnil, ⟨a, hams, hap, _⟩, hall⟩
  exact ⟨k2, suffix, hp, by rw [hl]; rfl, ha, hnil, ⟨a, hams, hap⟩, hall⟩

/-- C8: the `placed_at` stored for a newly placed order is the caller's
wall-clock `t` itself (not the bumped log timestamp) along with the
unchanged `Order`, and a move from cooler/heater to the shelf rewrites only
`current_temp`, preserving `placed_at` and the underlying `Order`. -/
theorem claim_C8 :
    (∀ (k : Kitchen) (o : Order) (t : Nat),
      k.cooler.length ≤ COOLER_CAPACITY → k.heater.length ≤ HEATER_CAPACITY →
      k.shelf.length ≤ SHELF_CAPACITY →
      (∀ p ∈ k.shelf, ∃ e ∈ k.shelf_queue, e.order_id = p.1) →
      k.lookupId o.id = [] →
      ∃ k2, k.place_order o t = some k2 ∧
        ∀ s ∈ k2.lookupId o.id, s.order = o ∧ s.placed_at = t) ∧
    (∀ (k : Kitchen) (source : String) (t : Nat) (s : StoredOrder)
        (rest : List StoredOrder),
      (if source = COOLER then k.cooler else k.heater) = s :: rest →
      k.shelf.length < SHELF_CAPACITY →
      ∃ bk, k.try_move_to_shelf_from_storage source t = some (true, bk) ∧
        mapLookup s.order.id bk.shelf = some { s with current_temp := SHELF }) := by
  constructor
  · intro k o t hc hh hs hcover hfree
    rcases place_order_master k o t hc hh hs hcover hfree with
      ⟨k2, suffix, loc, hp, hl, _⟩
    refine ⟨k2, hp, ?_⟩
    intro s hsmem
    rw [hl] at hsmem
    simp only [List.mem_singleton] at hsmem
    subst hsmem
    exact ⟨rfl, rfl⟩
  · intro k source t s rest hsrc hshelf
    have hnotfull : ¬ (k.shelf.length ≥ SHELF_CAPACITY) := not_le.mpr hshelf
    by_cases hsource : source = COOLER
    · rw [if_pos hsource] at hsrc
      refine ⟨{ cooler := rest, heater := k.heater,
                shelf := mapInsert s.order.id { s with current_temp := SHELF } k.shelf,
                shelf_queue := heapPush
                  { order_id := s.order.id,
                    expires_at := Kitchen.calculate_expiration
                      { s with current_temp := SHELF } s.placed_at } k.shelf_queue,
                actions := k.actions ++ [{ timestamp := max t (k.last_timestamp + 1),
                                           id := s.order.id, action := MOVE,
                                           target := SHELF }],
                last_timestamp := max t (k.last_timestamp + 1) }, ?_, ?_⟩
      · simp [Kitchen.try_move_to_shelf_from_storage, hnotfull, hsource, hsrc,
          Kitchen.record_action]
      · exact mapLookup_insert_self _ _ _
    · rw [if_neg hsource] at hsrc
      refine ⟨{ cooler := k.cooler, heater := rest,
                shelf := mapInsert s.order.id { s with current_temp := SHELF } k.shelf,
                shelf_queue := heapPush
                  { order_id := s.order.id,
                    expires_at := Kitchen.calculate_expiration
                      { s with current_temp := SHELF } s.placed_at } k.shelf_queue,
                actions := k.actions ++ [{ timestamp := max t (k.last_timestamp + 1),
                                           id := s.order.id, action := MOVE,
                                           target := SHELF }],
                last_timestamp := max t (k.last_timestamp + 1) }, ?_, ?_⟩
      · simp [Kitchen.try_move_to_shelf_from_storage, hnotfull, hsource, hsrc,
          Kitchen.record_action]
      · exact mapLookup_insert_self _ _ _

/-- C1: with the ideal storage (heater for hot, cooler for cold) at its
capacity of 6 and the shelf at its capacity, `place_order` emits exactly
`discard → shelf` (of a shelf occupant with the earliest projected
expiration), then `move → shelf` of the FIFO front of the ideal storage,
then `place → ideal`, with strictly increasing timestamps. -/
theorem claim_C1 (k : Kitchen) (o : Order) (t : Nat)
    (htemp : o.temp = HOT ∨ o.temp = COLD)
    (hideal : (if o.temp = HOT then k.heater else k.cooler).length = 6)
    (hshelf : SHELF_CAPACITY ≤ k.shelf.length)
    (hsorted : k.shelf_queue.Pairwise (fun a b => a.expires_at ≤ b.expires_at))
    (hkeys : ∀ e ∈ k.shelf_queue, ∀ p ∈ k.shelf, p.1 = e.order_id →
      e.expires_at = Kitchen.calculate_expiration p.2 p.2.placed_at)
    (hcover : ∀ p ∈ k.shelf, ∃ e ∈ k.shelf_queue, e.order_id = p.1) :
    ∃ k2 v sv front rest,
      (if o.temp = HOT then k.heater else k.cooler) = front :: rest ∧
      mapLookup v k.shelf = some sv ∧
      (∀ p ∈ k.shelf, Kitchen.calculate_expiration sv sv.placed_at ≤
        Kitchen.calculate_expiration p.2 p.2.placed_at) ∧
      k.place_order o t = some k2 ∧
      k2.actions = k.actions ++
        [{ timestamp := max t (k.last_timestamp + 1), id := v,
           action := DISCARD, target := SHELF },
         { timestamp := max t (k.last_timestamp + 1) + 1, id := front.order.id,
           action := MOVE, target := SHELF },
         { timestamp := max t (k.last_timestamp + 1) + 1 + 1, id := o.id,
           action := PLACE, target := if o.temp = HOT then HEATER else COOLER }] ∧
      List.Chain' (fun a b => a.timestamp < b.timestamp)
        (k2.actions.drop k.actions.length) := by
  have hne : k.shelf ≠ [] := by
    intro hnil
    rw [hnil] at hshelf
    simp [SHELF_CAPACITY] at hshelf
  rcases discardLoop_spec hsorted hkeys hcover hne with ⟨v, sv, q2, hloop, hsv, hmin⟩
  rcases htemp with h1 | h1
  · simp only [h1, reduceIte] at hideal
    cases hhe : k.heater with
    | nil => rw [hhe] at hideal; simp at hideal
    | cons front rest =>
      refine ⟨_, v, sv, front, rest, by simp [h1, hhe], hsv, hmin,
        place_order_hot_cascade k o t front rest v q2 h1 hhe hideal hshelf hloop,
        by simp [h1], ?_⟩
      simp only [List.drop_left, List.chain'_cons, List.chain'_singleton, and_true]
      exact ⟨Nat.lt_succ_self _, Nat.lt_succ_self _⟩
  · have hne2 : ¬ (COLD = HOT) := by decide
    rw [h1, if_neg hne2] at hideal
    cases hhe : k.cooler with
    | nil => rw [hhe] at hideal; simp at hideal
    | cons front rest =>
      refine ⟨_, v, sv, front, rest, by rw [h1, if_neg hne2], hsv, hmin,
        place_order_cold_cascade k o t front rest v q2 h1 hhe hideal hshelf hloop,
        by rw [h1, if_neg hne2], ?_⟩
      simp only [List.drop_left, List.chain'_cons, List.chain'_singleton, and_true]
      exact ⟨Nat.lt_succ_self _, Nat.lt_succ_self _⟩

/-- Concrete full kitchen for the C1/C5 witnesses: heater at capacity,
shelf at capacity with a sorted, key-correct eviction queue. -/
def shelfStored (i : Nat) : StoredOrder :=
  { order := { id := toString i, name := "", temp := ROOM, price := 0, freshness := 100 + i },
    placed_at := 0, current_temp := SHELF }

def heaterStored (i : Nat) : StoredOrder :=
  { order := { id := toString (50 + i), name := "", temp := HOT, price := 0, freshness := 300 },
    placed_at := 0, current_temp := HEATER }

def kitchenFull : Kitchen :=
  { cooler := [],
    heater := (List.range 6).map heaterStored,
    shelf := (List.range 12).map (fun i => ((shelfStored i).order.id, shelfStored i)),
    shelf_queue := (List.range 12).map (fun i =>
      { order_id := (shelfStored i).order.id, expires_at := (100 + i) * 1000000 }),
    actions := [], last_timestamp := 0 }

def orderNew : Order := { id := "n", name := "n", temp := HOT, price := 0, freshness := 7 }

theorem claim_C1_witness :
    ∃ k2 v sv front rest,
      (if orderNew.temp = HOT then kitchenFull.heater else kitchenFull.cooler) =
        front :: rest ∧
      mapLookup v kitchenFull.shelf = some sv ∧
      (∀ p ∈ kitchenFull.shelf, Kitchen.calculate_expiration sv sv.placed_at ≤
        Kitchen.calculate_expiration p.2 p.2.placed_at) ∧
      kitchenFull.place_order orderNew 42 = some k2 ∧
      k2.actions = kitchenFull.actions ++
        [{ timestamp := max 42 (kitchenFull.last_timestamp + 1), id := v,
           action := DISCARD, target := SHELF },
         { timestamp := max 42 (kitchenFull.last_timestamp + 1) + 1, id := front.order.id,
           action := MOVE, target := SHELF },
         { timestamp := max 42 (kitchenFull.last_timestamp + 1) + 1 + 1, id := orderNew.id,
           action := PLACE,
           target := if orderNew.temp = HOT then HEATER else COOLER }] ∧
      List.Chain' (fun a b => a.timestamp < b.timestamp)
        (k2.actions.drop kitchenFull.actions.length) :=
  claim_C1 kitchenFull orderNew 42 (Or.inl rfl) (by decide) (by decide) (by decide)
    (by decide) (by decide)

theorem claim_C5_witness :
    ∃ k2 suffix, kitchenFull.place_order orderNew 42 = some k2 ∧
      (k2.lookupId orderNew.id).length = 1 ∧
      k2.actions = kitchenFull.actions ++ suffix ∧ suffix ≠ [] ∧
      (∃ a ∈ suffix, a.action = PLACE) ∧
      (∀ a ∈ suffix, 42 ≤ a.timestamp ∧
        (a.action = PLACE ∨ a.action = MOVE ∨ a.action = DISCARD)) :=
  claim_C5 kitchenFull orderNew 42 (by decide) (by decide) (by decide) (by decide)
    (by decide)

def orderD : Order := { id := "d", name := "d", temp := COLD, price := 0, freshness := 9 }

theorem claim_C8_witness :
    (∃ k2, kitchenC2.place_order orderD 5 = some k2 ∧
      ∀ s ∈ k2.lookupId orderD.id, s.order = orderD ∧ s.placed_at = 5) ∧
    (∃ bk, kitchenC7.try_move_to_shelf_from_storage COOLER 50 = some (true, bk) ∧
      mapLookup storedC7.order.id bk.shelf =
        some { storedC7 with current_temp := SHELF }) :=
  ⟨claim_C8.1 kitchenC2 orderD 5 (by decide) (by decide) (by decide) (by decide)
      (by decide),
   claim_C8.2 kitchenC7 COOLER 50 storedC7 [] (by decide) (by decide)⟩

end MTKitchen
